import Mathlib

/-!
Verification of the recipe-parser core (backend/app/services) against its
natural-language specification.  The Python sources are shallowly embedded:
pure functions become Lean functions over `String`/`List Char`/`ℚ`, the
external collaborators (page fetcher, site scraper, structured-data
extractor, AI extractor, ingredient-NLP parser) are inputs to the embedded
orchestration, Python `Optional`/falsy values become `Option` with explicit
empty-string handling, and Python exceptions become `Except`.
Python `float` confidences are modelled as exact rationals; every
comparison the code performs on them is against the constant 0.6, where
rational and double arithmetic agree on all values arising here.
-/

namespace RecipeParser

/-- Python `str.strip()`: drop leading and trailing whitespace.  The
whitespace characters occurring in this code base are covered by
`Char.isWhitespace` (space, tab, CR, LF). -/
def pyStrip (s : String) : String :=
  ⟨((s.data.dropWhile Char.isWhitespace).reverse.dropWhile Char.isWhitespace).reverse⟩

/-- Python `str.lower()` (ASCII range, which is the domain of ingredient
names and of every table entry in the source). -/
def lowerStr (s : String) : String :=
  ⟨s.data.map Char.toLower⟩

/-- Does `hay` start with `needle` (character lists)? -/
def prefixMatch : List Char → List Char → Bool
  | [], _ => true
  | _ :: _, [] => false
  | n :: ns, h :: hs => n = h && prefixMatch ns hs

/-- Substring search over character lists. -/
def containsSubAux (needle : List Char) : List Char → Bool
  | [] => needle.isEmpty
  | c :: rest => prefixMatch needle (c :: rest) || containsSubAux needle rest

/-- Python substring test `needle in hay`. -/
def containsSub (hay needle : String) : Bool :=
  containsSubAux needle.data hay.data

/-- Python `str.split()` with no argument: split on whitespace runs,
discarding empty pieces (auxiliary recursion with accumulator). -/
def pySplitWsAux : List Char → List Char → List String
  | [], acc => if acc.isEmpty then [] else [⟨acc.reverse⟩]
  | c :: rest, acc =>
      if c.isWhitespace then
        if acc.isEmpty then pySplitWsAux rest []
        else ⟨acc.reverse⟩ :: pySplitWsAux rest []
      else pySplitWsAux rest (c :: acc)

/-- Python `str.split()` with no argument. -/
def pySplitWs (s : String) : List String :=
  pySplitWsAux s.data []

/-- Numeric value of a digit string (the digits of a regex `\d+` group). -/
def natOfDigits (cs : List Char) : Nat :=
  cs.foldl (fun n c => 10 * n + (c.toNat - '0'.toNat)) 0

/-- Python `str.replace`: left-to-right, non-overlapping replacement of a
non-empty pattern.  The fuel argument is bounded by the text length; each
step consumes at least one character, so the fuel never runs out. -/
def replaceAllAux (pat repl : List Char) : Nat → List Char → List Char
  | 0, cs => cs
  | _ + 1, [] => []
  | fuel + 1, c :: rest =>
      if prefixMatch pat (c :: rest) && !pat.isEmpty then
        repl ++ replaceAllAux pat repl fuel (rest.drop (pat.length - 1))
      else c :: replaceAllAux pat repl fuel rest

/-- Python `s.replace(pat, repl)` for the non-empty patterns used here. -/
def replaceAll (s pat repl : String) : String :=
  ⟨replaceAllAux pat.data repl.data s.data.length s.data⟩

/-!
Fraction and quantity arithmetic, from
`backend/app/services/ingredient_parser.py`.
-/

/-- `UNICODE_TO_FRACTION` from `ingredient_parser.py`: unicode vulgar
fractions and their `n/d` spellings, in source order. -/
def UNICODE_TO_FRACTION : List (String × String) :=
  [("½", "1/2"), ("⅓", "1/3"), ("⅔", "2/3"), ("¼", "1/4"), ("¾", "3/4"),
   ("⅕", "1/5"), ("⅖", "2/5"), ("⅗", "3/5"), ("⅘", "4/5"), ("⅙", "1/6"),
   ("⅚", "5/6"), ("⅛", "1/8"), ("⅜", "3/8"), ("⅝", "5/8"), ("⅞", "7/8")]

/-- `FRACTION_TO_UNICODE = {v: k for k, v in UNICODE_TO_FRACTION.items()}`. -/
def FRACTION_TO_UNICODE : List (String × String) :=
  UNICODE_TO_FRACTION.map (fun p => (p.2, p.1))

/-- Head match for the regex `\d+/\d+-` of `normalize_fractions_for_parsing`:
if the text starts with digits, a slash, digits and a dash, return the match
with the dash replaced by a space (the regex substitution `\1 `) together
with the rest of the text. -/
def fracDashSplit (cs : List Char) : Option (List Char × List Char) :=
  let p1 := cs.span Char.isDigit
  match p1.1, p1.2 with
  | _ :: _, '/' :: r2 =>
      let p2 := r2.span Char.isDigit
      match p2.1, p2.2 with
      | _ :: _, '-' :: r4 => some (p1.1 ++ '/' :: (p2.1 ++ [' ']), r4)
      | _, _ => none
  | _, _ => none

/-- Left-to-right, non-overlapping application of the `\d+/\d+-` → `\1 `
substitution.  The fuel argument is bounded by the text length; each step
consumes at least one character, so the fuel never runs out. -/
def fixDashAux : Nat → List Char → List Char
  | 0, cs => cs
  | _ + 1, [] => []
  | fuel + 1, c :: rest =>
      match fracDashSplit (c :: rest) with
      | some (m, r4) => m ++ fixDashAux fuel r4
      | none => c :: fixDashAux fuel rest

/-- `re.sub(r'(\d+/\d+)-', r'\1 ', text)` from
`normalize_fractions_for_parsing`. -/
def fixDashAfterFraction (s : String) : String :=
  ⟨fixDashAux s.data.length s.data⟩

/-- `normalize_fractions_for_parsing`: replace each unicode vulgar fraction
by its `n/d` spelling (dictionary order, global replacement), then fix the
`1/2-inch` spacing pattern. -/
def normalizeFractionsForParsing (s : String) : String :=
  fixDashAfterFraction
    (UNICODE_TO_FRACTION.foldl (fun acc p => replaceAll acc p.1 p.2) s)

/-- String parsing of Python `fractions.Fraction`, restricted to the forms
reaching this code: optional surrounding whitespace, optional sign, then
`digits`, `digits/digits`, or a decimal `digits.digits` (either digit group
of the decimal may be empty, not both).  Exponent notation, which no
quantity string here uses, is not modelled.  A zero denominator yields
`none`, matching the `ZeroDivisionError` that every caller catches.
The decimal branch of `convert_to_unicode_fraction` runs
`Fraction(float(s)).limit_denominator()`, which recovers exactly the
rational value of the short decimals arising here; it is modelled as exact
decimal parsing (no verified theorem depends on this branch). -/
def parsePyFraction (s : String) : Option ℚ :=
  let cs := (pyStrip s).data
  let signed : Int × List Char :=
    match cs with
    | '-' :: r => (-1, r)
    | '+' :: r => (1, r)
    | r => (1, r)
  let sp := signed.2.span Char.isDigit
  match sp.2 with
  | [] =>
      if sp.1.isEmpty then none
      else some (mkRat (signed.1 * (natOfDigits sp.1 : Int)) 1)
  | '/' :: r2 =>
      if sp.1.isEmpty then none
      else if r2.isEmpty then none
      else if r2.all Char.isDigit then
        let den := natOfDigits r2
        if den = 0 then none
        else some (mkRat (signed.1 * (natOfDigits sp.1 : Int)) den)
      else none
  | '.' :: r2 =>
      if r2.all Char.isDigit && !(sp.1.isEmpty && r2.isEmpty) then
        some (mkRat
          (signed.1 * ((natOfDigits sp.1 * 10 ^ r2.length + natOfDigits r2 : Nat) : Int))
          (10 ^ r2.length))
      else none
  | _ => none

/-- Python `str(Fraction)`: `num/den`, or just `num` when the denominator
is 1 (both representations are normalized). -/
def ratToPyString (q : ℚ) : String :=
  if q.den = 1 then toString q.num
  else toString q.num ++ "/" ++ toString q.den

/-- `convert_to_unicode_fraction`: parse the string as a fraction; improper
fractions become unicode mixed numbers (`7/2` → `3 ½`), proper fractions
map through `FRACTION_TO_UNICODE`, and unparsable strings are returned
unchanged (the `except` branch of the source). -/
def convertToUnicodeFraction (s : String) : String :=
  if s = "" then s
  else
    match parsePyFraction s with
    | none => s
    | some q =>
        if (q.den : Int) ≤ q.num ∧ q.den ≠ 1 then
          let whole := q.num / (q.den : Int)
          let rem := q.num % (q.den : Int)
          if rem = 0 then toString whole
          else
            let fs := ratToPyString (mkRat rem q.den)
            match FRACTION_TO_UNICODE.lookup fs with
            | some u => toString whole ++ " " ++ u
            | none => toString whole ++ " " ++ fs
        else
          let fs := ratToPyString q
          (FRACTION_TO_UNICODE.lookup fs).getD fs

/-!
Ingredient structuring (`parse_ingredient_structured` and its helpers).
The external `ingredient_parser.parse_ingredient` NLP collaborator is an
input: its result object is embedded as `ParsedNlp` (`none` at the
call site models the call raising, which the source catches and turns
into `None`).
-/

/-- One element of the NLP result's `amount` list.  `quantity` is
`str(raw_quantity)` when the attribute is truthy, `none` when it is
missing or falsy; likewise `unit` is `str(unit_obj)` or `none` (the source
applies exactly these truthiness checks). -/
structure AmountPart where
  quantity : Option String
  unit : Option String
deriving Repr, DecidableEq

/-- One element of the NLP result's `name` list: its `text` and an optional
`confidence` attribute (`getattr(..., 'confidence', 1.0)` defaults to 1). -/
structure NamePart where
  text : String
  confidence : Option ℚ
deriving Repr, DecidableEq

/-- The NLP result's `name` attribute: either a scalar (stringified by the
source) or a list of name parts. -/
inductive NameVal where
  | scalarName (s : String)
  | listName (ps : List NamePart)
deriving Repr, DecidableEq

/-- The object returned by the external ingredient-NLP collaborator.
`preparation`/`comment` hold the `.text` of those attributes when present
(`none` models an absent or falsy attribute). -/
structure ParsedNlp where
  name : Option NameVal
  amount : List AmountPart
  preparation : Option String
  comment : Option String
deriving Repr, DecidableEq

/-- `StructuredIngredient` dataclass from `ingredient_parser.py`. -/
structure StructuredIngredient where
  raw_ingredient : String
  quantity : Option String
  unit : Option String
  descriptors : List String
  original_text : String
  confidence : ℚ
  used_fallback : Bool
deriving Repr, DecidableEq

/-- `CONFIDENCE_THRESHOLD = 0.6`. -/
def CONFIDENCE_THRESHOLD : ℚ := mkRat 6 10

/-- `RAW_INGREDIENT_CONSOLIDATION`: canonical names with their variation
lists, in source (dict insertion) order. -/
def RAW_INGREDIENT_CONSOLIDATION : List (String × List String) :=
  [("eggs", ["egg", "eggs", "whole egg", "whole eggs", "large egg", "large eggs"]),
   ("butter", ["butter", "unsalted butter", "salted butter"]),
   ("sugar", ["sugar", "granulated sugar", "white sugar", "cane sugar"]),
   ("brown sugar", ["brown sugar", "dark brown sugar", "light brown sugar"]),
   ("salt", ["salt", "kosher salt", "sea salt", "table salt", "fine salt"]),
   ("olive oil", ["olive oil", "extra virgin olive oil", "evoo"])]

/-- `IGNORED_INGREDIENTS = ["water"]`. -/
def IGNORED_INGREDIENTS : List String := ["water"]

/-- The name preprocessing of `normalize_raw_ingredient`: lowercase, strip,
remove footnote asterisks (`re.sub(r'\*+', '')`), strip again. -/
def cleanedName (nm : String) : String :=
  pyStrip ⟨((pyStrip (lowerStr nm)).data.filter (fun c => c ≠ '*'))⟩

/-- The first consolidation-table entry one of whose variations occurs in
`name` as a substring (the source's first-match loop over the dict). -/
def firstConsolidationMatch (name : String) : Option String :=
  (RAW_INGREDIENT_CONSOLIDATION.find?
      (fun e => e.2.any (fun v => containsSub name (lowerStr v)))).map (·.1)

/-- `normalize_raw_ingredient`: clean the name, drop it entirely when it
contains an ignored ingredient as a substring, else fold it to the first
matching canonical name, else keep the cleaned name. -/
def normalizeRawIngredient (nm : String) : Option String :=
  let name := cleanedName nm
  if IGNORED_INGREDIENTS.any (fun ig => containsSub name ig) then none
  else
    match firstConsolidationMatch name with
    | some c => some c
    | none => some name

/-- Name and confidence extraction of `parse_ingredient_structured`:
a falsy `name` or an empty extracted string yields `None`; a scalar name
keeps the default confidence 1; a non-empty name list contributes its
first element's text and confidence. -/
def extractName : Option NameVal → Option (String × ℚ)
  | none => none
  | some (.scalarName s) => if s = "" then none else some (s, 1)
  | some (.listName []) => none
  | some (.listName (p :: _)) =>
      if p.text = "" then none else some (p.text, p.confidence.getD 1)

/-- Quantity/unit extraction of `parse_ingredient_structured`: the first
`amount` element's quantity (converted to a unicode fraction) and unit. -/
def extractAmount : List AmountPart → Option String × Option String
  | [] => (none, none)
  | a :: _ => (a.quantity.map convertToUnicodeFraction, a.unit)

/-- Descriptor cleaning shared by the `preparation` and `comment`
attributes: remove parentheses and commas, whitespace-split, keep pieces
longer than one character. -/
def cleanPrepText (t : String) : List String :=
  (pySplitWs ⟨t.data.filter (fun c => c ≠ '(' && c ≠ ')' && c ≠ ',')⟩).filter
    (fun w => 1 < w.length)

/-- Descriptor extraction of `parse_ingredient_structured`: cleaned
`preparation` pieces followed by cleaned `comment` pieces. -/
def descriptorsOf (p : ParsedNlp) : List String :=
  (match p.preparation with
   | none => []
   | some t => if t = "" then [] else cleanPrepText t) ++
  (match p.comment with
   | none => []
   | some t => if t = "" then [] else cleanPrepText t)

/-- `parse_ingredient_structured(ingredient_text)`, with the NLP call's
result passed in (`none` models the call raising; the source returns
`None` then).  Empty or whitespace-only lines yield `None`; a confidence
below `CONFIDENCE_THRESHOLD` (`should_use_fallback`) yields the verbatim
fallback record; otherwise the name is normalized (possibly dropping the
line) and the structured record is built. -/
def parseIngredientStructured (line : String) (nlpR : Option ParsedNlp) :
    Option StructuredIngredient :=
  if pyStrip line = "" then none
  else
    match nlpR with
    | none => none
    | some parsed =>
        let amt := extractAmount parsed.amount
        match extractName parsed.name with
        | none => none
        | some (nm, conf) =>
            if conf < CONFIDENCE_THRESHOLD then
              some { raw_ingredient := pyStrip line, quantity := none,
                     unit := none, descriptors := [], original_text := line,
                     confidence := conf, used_fallback := true }
            else
              match normalizeRawIngredient nm with
              | none => none
              | some raw =>
                  some { raw_ingredient := raw, quantity := amt.1,
                         unit := amt.2, descriptors := descriptorsOf parsed,
                         original_text := line, confidence := conf,
                         used_fallback := false }

/-!
Consolidation (`combine_quantities`, `can_combine_ingredients`,
`consolidate_ingredient_group`, `parse_ingredients_list`).
-/

/-- Python falsiness of an optional quantity string (`None` or `""`). -/
def strFalsy : Option String → Bool
  | none => true
  | some s => s = ""

/-- Addition of two `Fraction` values as `fractions.Fraction.__add__`
computes it: the cross-multiplied numerator over the product denominator,
normalized.  `pyFracAdd_eq_add` below proves this is exactly rational
addition on `ℚ`. -/
def pyFracAdd (f1 f2 : ℚ) : ℚ :=
  mkRat (f1.num * (f2.den : Int) + f2.num * (f1.den : Int)) (f1.den * f2.den)

/-- The `try` block of `combine_quantities` on two non-falsy quantity
strings: normalize both, parse both as exact fractions and add them,
rendering the sum as a unicode mixed number; if either parse fails (the
`except` branch) concatenate the strings with `" + "`. -/
def combineParsedQuantities (a b : String) : Option String :=
  match parsePyFraction (normalizeFractionsForParsing a),
        parsePyFraction (normalizeFractionsForParsing b) with
  | some f1, some f2 =>
      some (convertToUnicodeFraction (ratToPyString (pyFracAdd f1 f2)))
  | _, _ => some (a ++ " + " ++ b)

/-- `combine_quantities`: falsy inputs pass the other operand through;
otherwise the two strings are combined by `combineParsedQuantities`. -/
def combineQuantities (q1 q2 : Option String) : Option String :=
  if strFalsy q1 && strFalsy q2 then none
  else if strFalsy q1 then q2
  else if strFalsy q2 then q1
  else
    match q1, q2 with
    | some a, some b => combineParsedQuantities a b
    | _, _ => none

/-- `can_combine_ingredients`: same raw ingredient and equal units (a
redundant final clause re-admits two `None` units). -/
def can_combine_ingredients (a b : StructuredIngredient) : Bool :=
  if a.raw_ingredient ≠ b.raw_ingredient then false
  else if a.unit = b.unit then true
  else if a.unit = none ∧ b.unit = none then true
  else false

/-- The grouping key `ing.unit or "unitless"` of
`consolidate_ingredient_group` (Python `or` maps both `None` and the empty
string to `"unitless"`). -/
def unitKey : Option String → String
  | none => "unitless"
  | some s => if s = "" then "unitless" else s

/-- Append `x` to the group keyed `k`, creating the group at the end when
absent — the insertion-ordered dict building of the source. -/
def insertGroup {α : Type} (k : String) (x : α) :
    List (String × List α) → List (String × List α)
  | [] => [(k, [x])]
  | (k2, xs) :: rest =>
      if k = k2 then (k2, xs ++ [x]) :: rest
      else (k2, xs) :: insertGroup k x rest

/-- Auxiliary recursion for `pdedup` carrying the set of seen strings. -/
def pdedupAux : List String → List String → List String
  | [], _ => []
  | x :: xs, seen =>
      if seen.contains x then pdedupAux xs seen
      else x :: pdedupAux xs (x :: seen)

/-- `list(dict.fromkeys(xs))`: de-duplicate preserving first occurrences. -/
def pdedup (l : List String) : List String :=
  pdedupAux l []

/-- Python `min` over a non-empty list of confidences. -/
def minConf : List ℚ → ℚ
  | [] => 0
  | c :: cs => cs.foldl min c

/-- `consolidate_ingredient_group`: group the records by unit key; unit
groups of size one pass through; larger groups merge into one record whose
quantity folds `combine_quantities` over the members, whose descriptors are
the order-preserving de-duplicated union, whose confidence is the minimum
and whose `used_fallback` is the disjunction. -/
def consolidateIngredientGroup (l : List StructuredIngredient) :
    List StructuredIngredient :=
  if l.length ≤ 1 then l
  else
    let groups := l.foldl (fun gs i => insertGroup (unitKey i.unit) i gs) []
    groups.flatMap (fun g =>
      match g.2 with
      | [x] => [x]
      | [] => []
      | base :: rest =>
          [{ raw_ingredient := base.raw_ingredient,
             quantity :=
               rest.foldl (fun q i => combineQuantities q i.quantity) base.quantity,
             unit := base.unit,
             descriptors := pdedup ((base :: rest).flatMap (fun i => i.descriptors)),
             original_text :=
               "Combined: " ++
                 String.intercalate ", " ((base :: rest).map (fun i => i.original_text)),
             confidence := minConf ((base :: rest).map (fun i => i.confidence)),
             used_fallback := (base :: rest).any (fun i => i.used_fallback) }])

/-- `parse_ingredients_list`: parse each line (each paired with its NLP
result), group the surviving records by `raw_ingredient` in first-seen
order, pass singleton groups through and consolidate the rest. -/
def parseIngredientsList (inputs : List (String × Option ParsedNlp)) :
    List StructuredIngredient :=
  let parsed := inputs.filterMap (fun i => parseIngredientStructured i.1 i.2)
  let m := parsed.foldl (fun gs s => insertGroup s.raw_ingredient s gs) []
  m.flatMap (fun g => if g.2.length = 1 then g.2 else consolidateIngredientGroup g.2)

/-- The merged record a two-element unit group consolidates to (the
specialization of the merge branch of `consolidate_ingredient_group` to a
pair). -/
def mergedPair (i1 i2 : StructuredIngredient) : StructuredIngredient :=
  { raw_ingredient := i1.raw_ingredient,
    quantity := combineQuantities i1.quantity i2.quantity,
    unit := i1.unit,
    descriptors := pdedup (i1.descriptors ++ i2.descriptors),
    original_text :=
      "Combined: " ++ String.intercalate ", " [i1.original_text, i2.original_text],
    confidence := min i1.confidence i2.confidence,
    used_fallback := i1.used_fallback || i2.used_fallback }

/-!
Instruction segmentation, from
`backend/app/services/processors/instruction_processor.py`.
The regex splits are embedded at character level: `re.split` with a
zero-width lookahead cuts the text before every match position (a match at
position 0 contributes an empty first piece, exactly as CPython does), and
`re.split(r'\n\n+', s)` removes each maximal run of two or more newlines.
-/

/-- A `\w` word character (ASCII range, sufficient for the marker
literals). -/
def isWordChar (c : Char) : Bool :=
  c.isAlphanum || c = '_'

/-- Does `lit` followed by a `\b` word boundary match at the head of `cs`?
All marker literals end in a word character, so the boundary holds exactly
when the next character is absent or not a word character. -/
def litBoundaryAt : List Char → List Char → Bool
  | [], [] => true
  | [], c :: _ => !isWordChar c
  | _ :: _, [] => false
  | l :: ls, c :: rest => l = c && litBoundaryAt ls rest

/-- Head match of the lookahead `(?=lit\b)`. -/
def matchLitB (lit : String) (cs : List Char) : Bool :=
  litBoundaryAt lit.data cs

/-- Head match of the lookahead `(?=\d+\.)`: one or more digits followed by
a dot. -/
def digitsThenDotAt (cs : List Char) : Bool :=
  let sp := cs.span Char.isDigit
  !sp.1.isEmpty &&
    (match sp.2 with
     | '.' :: _ => true
     | _ => false)

/-- Head match of the lookahead `(?=Step \d+)`. -/
def stepDigitAt : List Char → Bool
  | 'S' :: 't' :: 'e' :: 'p' :: ' ' :: c :: _ => c.isDigit
  | _ => false

/-- `re.split` on a zero-width lookahead `p`: cut before every position
where `p` matches; after a cut the matching character is consumed into the
new piece, so the next cut is at a later position. -/
def splitLookaheadAux (p : List Char → Bool) : List Char → List Char → List (List Char)
  | [], acc => [acc.reverse]
  | c :: rest, acc =>
      if p (c :: rest) then acc.reverse :: splitLookaheadAux p rest [c]
      else splitLookaheadAux p rest (c :: acc)

/-- `re.split` on a zero-width lookahead, on strings. -/
def splitLookahead (p : List Char → Bool) (s : String) : List String :=
  (splitLookaheadAux p s.data []).map (fun l => ⟨l⟩)

/-- `re.split(r'\n\n+', s)`: cut at each maximal run of at least two
newlines, removing the run.  The fuel argument is bounded by the text
length plus one; every step consumes at least one character, so the fuel
never runs out. -/
def splitNlAux : Nat → List Char → List Char → List (List Char)
  | 0, cs, acc => [acc.reverse ++ cs]
  | _ + 1, [], acc => [acc.reverse]
  | fuel + 1, '\n' :: '\n' :: rest, acc =>
      acc.reverse :: splitNlAux fuel (rest.dropWhile (fun c => c = '\n')) []
  | fuel + 1, c :: rest, acc => splitNlAux fuel rest (c :: acc)

/-- `re.split(r'\n\n+', s)`, on strings. -/
def splitNlRuns (s : String) : List String :=
  (splitNlAux (s.data.length + 1) s.data []).map (fun l => ⟨l⟩)

/-- One pass of the split-pattern loop of
`_split_concatenated_instructions`: split every accumulated piece, strip
the parts and keep the non-empty ones. -/
def applySplitPattern (splitter : String → List String)
    (instrs : List String) : List String :=
  instrs.flatMap (fun ins => ((splitter ins).map pyStrip).filter (fun t => t ≠ ""))

/-- The `split_patterns` list of `_split_concatenated_instructions`, in
source order. -/
def splitPatterns : List (String → List String) :=
  [splitNlRuns,
   splitLookahead (matchLitB "To Prep"),
   splitLookahead (matchLitB "To Cook"),
   splitLookahead (matchLitB "To Serve"),
   splitLookahead (matchLitB "To Finish"),
   splitLookahead (matchLitB "Next"),
   splitLookahead (matchLitB "Then"),
   splitLookahead (matchLitB "Meanwhile"),
   splitLookahead digitsThenDotAt,
   splitLookahead stepDigitAt]

/-- `_split_concatenated_instructions`: run the split-pattern chain over
the accumulating fragment list, then keep only stripped fragments longer
than 20 characters; if none survives, fall back to the original text as a
single-element list. -/
def splitConcatenatedInstructions (text : String) : List String :=
  let instrs := splitPatterns.foldl (fun acc p => applySplitPattern p acc) [text]
  let cleaned := (instrs.map pyStrip).filter (fun t => 20 < t.length)
  if cleaned.isEmpty then [text] else cleaned

/-- The `step_indicators` list of `_looks_like_concatenated_steps`, in
source order. -/
def stepIndicators : List String :=
  ["To Prep", "To Cook", "To Serve", "To Finish",
   "Step 1", "Step 2", "Step 3",
   "Heat some", "Next", "Then", "When", "After", "Meanwhile",
   "1.", "2.", "3.", "4.", "5.",
   "In a", "Add the", "Remove from"]

/-- `_looks_like_concatenated_steps`: at least two indicators occur as
substrings, or the text exceeds 500 characters. -/
def looksLikeConcatenatedSteps (text : String) : Bool :=
  2 ≤ stepIndicators.countP (fun ind => containsSub text ind) || 500 < text.length

/-- One entry of a `recipeInstructions` list: a plain string, or a
`{text, name}` object whose `text` key wins over `name` (`dict.get` with a
default, so a present-but-empty `text` is used as is).  For an object with
neither key the source falls back to `str(instr)`, modelled for the empty
object (entries carry no further keys in this data model). -/
inductive InstrEntry where
  | txt (s : String)
  | obj (text name : Option String)
deriving Repr, DecidableEq

/-- Text extraction for one instruction entry. -/
def entryText : InstrEntry → String
  | .txt s => s
  | .obj (some t) _ => t
  | .obj none (some n) => n
  | .obj none none => "\x7b\x7d"

/-- The `raw_instructions` argument of `process_instructions`: one
concatenated string or a list of entries. -/
inductive RawInstr where
  | ofString (s : String)
  | ofList (items : List InstrEntry)
deriving Repr, DecidableEq

/-- `InstructionProcessor.process_instructions`: a string input is split
unconditionally; a list input keeps each entry whose stripped text exceeds
5 characters, splitting the ones that look concatenated; finally only
stripped instructions longer than 10 characters are kept. -/
def processInstructions : RawInstr → List String
  | .ofString s =>
      ((splitConcatenatedInstructions s).map pyStrip).filter (fun t => 10 < t.length)
  | .ofList items =>
      let instrs := items.flatMap (fun it =>
        let text := entryText it
        if text ≠ "" ∧ 5 < (pyStrip text).length then
          if looksLikeConcatenatedSteps text then splitConcatenatedInstructions text
          else [pyStrip text]
        else [])
      (instrs.map pyStrip).filter (fun t => 10 < t.length)

/-!
Extraction orchestration, from `backend/app/services/recipe_service.py`
(`RecipeService.parse_recipe_hybrid` and its completeness gate) and the
converter gates of
`backend/app/services/processors/recipe_converter.py`.
The `Recipe` model keeps the fields the orchestration logic reads or
writes; the remaining metadata fields of the pydantic model are carried
along unchanged by every code path the claims concern.
-/

/-- The `Recipe` pydantic model (the fields the verified logic touches). -/
structure Recipe where
  title : String
  description : Option String := none
  image : Option String := none
  source : Option String := none
  ingredients : List String
  instructions : List String
  found_structured_data : Bool := false
  used_ai : Bool := false
deriving Repr, DecidableEq

/-- Title test of `RecipeService._is_complete`: the title is none of the
known placeholder/failure titles. -/
def realTitleSvc (t : String) : Bool :=
  !(["Untitled Recipe", "Could not parse recipe", "Unable to parse recipe"].contains t)

/-- `RecipeService._is_complete` on a present recipe: real title, at least
3 ingredients and at least 2 instructions. -/
def isCompleteRecipe (r : Recipe) : Bool :=
  realTitleSvc r.title && decide (3 ≤ r.ingredients.length) &&
    decide (2 ≤ r.instructions.length)

/-- `RecipeService._is_complete` including its `if not recipe` guard. -/
def isCompleteOpt : Option Recipe → Bool
  | none => false
  | some r => isCompleteRecipe r

/-- `RecipeConverter.is_complete_recipe`: its title list lacks the
`"Unable to parse recipe"` sentinel and it requires only one
instruction. -/
def is_complete_recipe (r : Recipe) : Bool :=
  !(["Untitled Recipe", "Could not parse recipe"].contains r.title) &&
    decide (3 ≤ r.ingredients.length) && decide (1 ≤ r.instructions.length)

/-- `RecipeConverter.is_good_enough_recipe`: real title and at least 2
ingredients or at least 1 instruction. -/
def is_good_enough_recipe (r : Recipe) : Bool :=
  !(["Untitled Recipe", "Could not parse recipe"].contains r.title) &&
    (decide (2 ≤ r.ingredients.length) || decide (1 ≤ r.instructions.length))

/-- Python truthiness of an optional image URL string. -/
def optTruthy : Option String → Bool
  | none => false
  | some s => s ≠ ""

/-- The recurring `if not recipe.image and fallback_image:` patch. -/
def patchImage (r : Recipe) (fb : Option String) : Recipe :=
  if !optTruthy r.image && optTruthy fb then { r with image := fb } else r

/-- The `try/except` wrapper each `_try_*` helper puts around its body: an
exception becomes `None` and the pipeline advances. -/
def catchToNone : Except String (Option Recipe) → Option Recipe
  | .error _ => none
  | .ok v => v

/-- `_try_extruct_with_content` / `_try_ai_fallback_with_content` as seen
by the orchestrator: the body's outcome (`.error` models the body raising)
with the missing-image patch the helpers apply before returning. -/
def tryStrategyWithImagePatch (raw : Except String (Option Recipe))
    (fb : Option String) : Option Recipe :=
  match catchToNone raw with
  | none => none
  | some r => some (patchImage r fb)

/-- The graceful-failure `Recipe` of step 4 of `parse_recipe_hybrid`. -/
def sentinelRecipe (fb : Option String) : Recipe :=
  { title := "Unable to parse recipe",
    description := some "Could not extract recipe data using any method",
    image := fb,
    source := none,
    ingredients := ["Could not extract ingredients"],
    instructions := ["Could not extract instructions"],
    found_structured_data := false,
    used_ai := false }

/-- The `HTTPException` raised by `parse_recipe_hybrid`. -/
structure HTTPError where
  status : Nat
  detail : String
deriving Repr, DecidableEq

/-- Steps 3 and 4 of `parse_recipe_hybrid`: the AI result is returned if
complete; otherwise the variable still holds the AI result, which step 4
returns whenever it exists and its title is not `"Could not parse
recipe"`, else the sentinel recipe. -/
def hybridStep3 (fb : Option String) : Option Recipe → Recipe
  | some r =>
      if isCompleteRecipe r then r
      else if r.title ≠ "Could not parse recipe" then r
      else sentinelRecipe fb
  | none => sentinelRecipe fb

/-- Step 2 of `parse_recipe_hybrid`: the extruct result is returned if
complete, else the pipeline advances to the AI step. -/
def hybridStep2 (fb : Option String) (r2 r3 : Option Recipe) : Recipe :=
  match r2 with
  | some r => if isCompleteRecipe r then r else hybridStep3 fb r3
  | none => hybridStep3 fb r3

/-- Steps 1-4 of `parse_recipe_hybrid` after a successful fetch: the
scrapers result is image-patched and returned if complete, else the
pipeline advances. -/
def hybridCore (fb : Option String) (r1 r2 r3 : Option Recipe) : Recipe :=
  match r1 with
  | some r => if isCompleteRecipe r then patchImage r fb else hybridStep2 fb r2 r3
  | none => hybridStep2 fb r2 r3

/-- `RecipeService.parse_recipe_hybrid`.  The fetch collaborator is an
input: `.error` models `requests` raising, which the source converts to an
`HTTPException(400)`; `.ok fb` carries the fallback image extracted from
the fetched page.  Each strategy's raw outcome (body result or raised
exception) is likewise an input. -/
def parseRecipeHybrid (fetch : Except String (Option String))
    (scrapersRaw extructRaw aiRaw : Except String (Option Recipe)) :
    Except HTTPError Recipe :=
  match fetch with
  | .error e => .error ⟨400, "Failed to fetch URL: " ++ e⟩
  | .ok fb =>
      .ok (hybridCore fb (catchToNone scrapersRaw)
        (tryStrategyWithImagePatch extructRaw fb)
        (tryStrategyWithImagePatch aiRaw fb))

/-- A strategy raising or returning nothing — the "no result" cases of the
error-handling design. -/
def noResult (x : Except String (Option Recipe)) : Prop :=
  x = .ok none ∨ ∃ m, x = .error m

/-!
Theorems for the claims.
-/

/-- The `Fraction` addition formula used by `combine_quantities` is exact
rational addition on `ℚ`. -/
theorem pyFracAdd_eq_add (f1 f2 : ℚ) : pyFracAdd f1 f2 = f1 + f2 := by
  unfold pyFracAdd
  have h1 : (f1.den : ℚ) ≠ 0 := Nat.cast_ne_zero.mpr f1.den_nz
  have h2 : (f2.den : ℚ) ≠ 0 := Nat.cast_ne_zero.mpr f2.den_nz
  rw [Rat.mkRat_eq_div]
  conv_rhs => rw [← Rat.num_div_den f1, ← Rat.num_div_den f2]
  rw [div_add_div _ _ h1 h2]
  push_cast
  ring_nf

/-- C2: a recipe is judged complete by the orchestrator's completeness gate
iff its title is none of the known placeholder/failure titles and it has at
least 3 ingredients and at least 2 instructions; in particular a
real-titled recipe with 3 ingredients and 1 instruction is good-enough but
not complete, and with 3 ingredients and 2 instructions it is complete. -/
theorem c2_completeness_gate (r : Recipe) :
    (isCompleteOpt (some r) = true ↔
      r.title ∉ ["Untitled Recipe", "Could not parse recipe", "Unable to parse recipe"] ∧
        3 ≤ r.ingredients.length ∧ 2 ≤ r.instructions.length) ∧
    (r.title ∉ ["Untitled Recipe", "Could not parse recipe", "Unable to parse recipe"] →
      r.ingredients.length = 3 →
      (r.instructions.length = 1 →
        is_good_enough_recipe r = true ∧ isCompleteOpt (some r) = false) ∧
      (r.instructions.length = 2 → isCompleteOpt (some r) = true)) := by
  constructor
  · simp [isCompleteOpt, isCompleteRecipe, realTitleSvc, and_assoc]
  · intro ht h3
    have ht2 : r.title ∉ ["Untitled Recipe", "Could not parse recipe"] := by
      intro hmem
      apply ht
      simp only [List.mem_cons, List.not_mem_nil, or_false] at hmem ⊢
      tauto
    constructor
    · intro h1
      constructor
      · simp [is_good_enough_recipe, ht2, h3]
      · simp [isCompleteOpt, isCompleteRecipe, realTitleSvc, h1]
    · intro h2
      simp [isCompleteOpt, isCompleteRecipe, realTitleSvc, ht, h3, h2]

/-- C2 witness: the gate facts evaluated at a concrete recipe with a real
title, 3 ingredients and 1 (resp. 2) instructions. -/
theorem c2_witness :
    is_good_enough_recipe
        ⟨"Soup", none, none, none, ["a", "b", "c"], ["step one"], false, false⟩ = true ∧
    isCompleteOpt
        (some ⟨"Soup", none, none, none, ["a", "b", "c"], ["step one"], false, false⟩) = false ∧
    isCompleteOpt
        (some ⟨"Soup", none, none, none, ["a", "b", "c"], ["step one", "step two"],
          false, false⟩) = true := by
  refine ⟨?_, ?_, ?_⟩
  · exact (((c2_completeness_gate
      ⟨"Soup", none, none, none, ["a", "b", "c"], ["step one"], false, false⟩).2
        (by decide) rfl).1 rfl).1
  · exact (((c2_completeness_gate
      ⟨"Soup", none, none, none, ["a", "b", "c"], ["step one"], false, false⟩).2
        (by decide) rfl).1 rfl).2
  · exact ((c2_completeness_gate
      ⟨"Soup", none, none, none, ["a", "b", "c"], ["step one", "step two"],
        false, false⟩).2 (by decide) rfl).2 rfl

/-- C3: an ingredient line whose NLP parse yields a name with confidence
below the 0.6 threshold is structured as the fallback record:
`used_fallback` true, null quantity and unit, no descriptors, and
`raw_ingredient` equal to the original line trimmed of surrounding
whitespace only. -/
theorem c3_low_confidence_fallback (line : String) (p : ParsedNlp)
    (nm : String) (conf : ℚ)
    (hline : pyStrip line ≠ "")
    (hname : extractName p.name = some (nm, conf))
    (hconf : conf < CONFIDENCE_THRESHOLD) :
    parseIngredientStructured line (some p) =
      some { raw_ingredient := pyStrip line, quantity := none, unit := none,
             descriptors := [], original_text := line, confidence := conf,
             used_fallback := true } := by
  simp [parseIngredientStructured, hline, hname, hconf]

/-- C3 witness: a confidence-0.4 parse of a concrete line yields exactly
the trimmed-verbatim fallback record. -/
theorem c3_witness :
    parseIngredientStructured " hummus or goat cheese "
        (some ⟨some (.listName [⟨"hummus", some (mkRat 2 5)⟩]),
          [⟨some "1", some "cup"⟩], none, none⟩) =
      some { raw_ingredient := "hummus or goat cheese", quantity := none,
             unit := none, descriptors := [],
             original_text := " hummus or goat cheese ",
             confidence := mkRat 2 5, used_fallback := true } := by
  have h := c3_low_confidence_fallback " hummus or goat cheese "
    ⟨some (.listName [⟨"hummus", some (mkRat 2 5)⟩]),
      [⟨some "1", some "cup"⟩], none, none⟩
    "hummus" (mkRat 2 5) (by decide) rfl (by decide)
  simpa using h

/-- C7 (amended): the inner splitter never empties —
`_split_concatenated_instructions` returns the original text as a
single-element list when no fragment survives its 20-character floor — but
the surrounding `process_instructions` has no such fallback (see the
counterexample). -/
theorem c7_split_fallback (s : String) : splitConcatenatedInstructions s ≠ [] := by
  unfold splitConcatenatedInstructions
  dsimp only
  split
  · simp
  · next hne =>
      intro heq
      rw [heq] at hne
      simp at hne

/-- C7 counterexample: the non-empty input `"Stir."` is segmented to the
empty list, because the final 10-character floor of
`process_instructions` discards the splitter's fallback fragment. -/
theorem c7_counterexample :
    "Stir." ≠ "" ∧ processInstructions (.ofString "Stir.") = [] := by
  refine ⟨by decide, ?_⟩
  rfl

/-- C8 (amended): segmenting the string
`"1. Heat oil. 2. Add onions. 3. Serve."` yields a single fragment — the
original text unchanged, since every individual step falls below the
20-character floor and the splitter falls back to the whole text; the
fragment exceeds 10 characters but does start with the bare ordinal
`"1."`. -/
theorem c8_single_fragment :
    processInstructions (.ofString "1. Heat oil. 2. Add onions. 3. Serve.") =
      ["1. Heat oil. 2. Add onions. 3. Serve."] ∧
    10 < ("1. Heat oil. 2. Add onions. 3. Serve." : String).length ∧
    prefixMatch "1.".data "1. Heat oil. 2. Add onions. 3. Serve.".data = true := by
  refine ⟨?_, by decide, by decide⟩
  rfl

/-- C8 counterexample: the same string does not segment into 3 fragments. -/
theorem c8_counterexample :
    (processInstructions (.ofString "1. Heat oil. 2. Add onions. 3. Serve.")).length ≠ 3 := by
  intro h
  rw [show processInstructions (.ofString "1. Heat oil. 2. Add onions. 3. Serve.") =
      ["1. Heat oil. 2. Add onions. 3. Serve."] from rfl] at h
  simp at h

/-- C4 (amended): the fallback invariant holds for single-line records:
whenever `parse_ingredient_structured` returns a record with
`used_fallback` true, its quantity and unit are null and its
`raw_ingredient` is the original line trimmed of whitespace only.
List-level consolidation does not preserve it (see the counterexample). -/
theorem c4_single_line_fallback_invariant (line : String)
    (nlpR : Option ParsedNlp) (r : StructuredIngredient)
    (h : parseIngredientStructured line nlpR = some r)
    (hf : r.used_fallback = true) :
    r.quantity = none ∧ r.unit = none ∧ r.raw_ingredient = pyStrip line := by
  by_cases h0 : pyStrip line = ""
  · simp [parseIngredientStructured, h0] at h
  · cases nlpR with
    | none => simp [parseIngredientStructured, h0] at h
    | some parsed =>
        rcases hn : extractName parsed.name with _ | ⟨nm, conf⟩
        · simp [parseIngredientStructured, h0, hn] at h
        · by_cases hc : conf < CONFIDENCE_THRESHOLD
          · simp [parseIngredientStructured, h0, hn, hc] at h
            rw [← h]
            exact ⟨rfl, rfl, rfl⟩
          · rcases hm : normalizeRawIngredient nm with _ | raw
            · simp [parseIngredientStructured, h0, hn, hc, hm] at h
            · simp [parseIngredientStructured, h0, hn, hc, hm] at h
              rw [← h] at hf
              simp at hf

/-- C4 witness: the single-line invariant evaluated on a concrete
confidence-0.4 line. -/
theorem c4_witness :
    ∃ r, parseIngredientStructured "eggs"
        (some ⟨some (.listName [⟨"eggs", some (mkRat 2 5)⟩]), [], none, none⟩) =
          some r ∧
      r.quantity = none ∧ r.unit = none ∧ r.raw_ingredient = pyStrip "eggs" := by
  have h := c4_single_line_fallback_invariant "eggs"
    (some ⟨some (.listName [⟨"eggs", some (mkRat 2 5)⟩]), [], none, none⟩)
    { raw_ingredient := "eggs", quantity := none, unit := none,
      descriptors := [], original_text := "eggs", confidence := mkRat 2 5,
      used_fallback := true } (by decide) rfl
  exact ⟨_, by decide, h⟩

/-- C4 counterexample: consolidating the fallback record for `"eggs"`
(confidence 0.4) with the confident record for `"2 eggs"` produces a merged
record with `used_fallback` true and a non-null quantity whose
`raw_ingredient` is no single line — the invariant does not extend to
consolidated records. -/
theorem c4_counterexample :
    parseIngredientsList
        [("eggs", some ⟨some (.listName [⟨"eggs", some (mkRat 2 5)⟩]), [], none, none⟩),
         ("2 eggs", some ⟨some (.listName [⟨"eggs", some (mkRat 9 10)⟩]),
            [⟨some "2", none⟩], none, none⟩)] =
      [{ raw_ingredient := "eggs", quantity := some "2", unit := none,
         descriptors := [], original_text := "Combined: eggs, 2 eggs",
         confidence := mkRat 2 5, used_fallback := true }] ∧
    ({ raw_ingredient := "eggs", quantity := some "2", unit := none,
       descriptors := [], original_text := "Combined: eggs, 2 eggs",
       confidence := mkRat 2 5, used_fallback := true } :
        StructuredIngredient).quantity ≠ none := by
  exact ⟨by decide, by simp⟩

/-- On two non-falsy quantity strings `combine_quantities` is the
parse-and-add combination. -/
theorem combineQuantities_some (a b : String) (ha : a ≠ "") (hb : b ≠ "") :
    combineQuantities (some a) (some b) = combineParsedQuantities a b := by
  have ha2 : strFalsy (some a) = false := by simp [strFalsy, ha]
  have hb2 : strFalsy (some b) = false := by simp [strFalsy, hb]
  unfold combineQuantities
  rw [ha2, hb2]
  simp

/-- Two records with the same unit key consolidate to the single merged
record. -/
theorem consolidate_pair_eq (i1 i2 : StructuredIngredient)
    (hu : unitKey i1.unit = unitKey i2.unit) :
    consolidateIngredientGroup [i1, i2] = [mergedPair i1 i2] := by
  simp [consolidateIngredientGroup, insertGroup, hu, mergedPair, minConf, pdedup]

/-- Two records with different unit keys pass through consolidation
unmerged. -/
theorem consolidate_pair_ne (i1 i2 : StructuredIngredient)
    (hu : unitKey i1.unit ≠ unitKey i2.unit) :
    consolidateIngredientGroup [i1, i2] = [i1, i2] := by
  have hu2 : ¬ unitKey i2.unit = unitKey i1.unit := fun h => hu h.symm
  simp [consolidateIngredientGroup, insertGroup, hu2]

/-- C5: a consolidation group of size two merges into one record whose
confidence is the minimum of the members, whose descriptors are the
order-preserving de-duplicated union, whose `used_fallback` is the
disjunction, and whose quantity is `combine_quantities` of the member
quantities; `combine_quantities` adds any two quantity strings that parse
as fractions after unicode normalization with exact rational arithmetic
and renders the sum as a unicode mixed number, and concatenates the
strings with `" + "` when either fails to parse. -/
theorem c5_consolidation_arithmetic (i1 i2 : StructuredIngredient)
    (hu : unitKey i1.unit = unitKey i2.unit) :
    (∃ m, consolidateIngredientGroup [i1, i2] = [m] ∧
       m.confidence = min i1.confidence i2.confidence ∧
       m.descriptors = pdedup (i1.descriptors ++ i2.descriptors) ∧
       m.used_fallback = (i1.used_fallback || i2.used_fallback) ∧
       m.quantity = combineQuantities i1.quantity i2.quantity) ∧
    (∀ a b f1 f2, a ≠ "" → b ≠ "" →
       parsePyFraction (normalizeFractionsForParsing a) = some f1 →
       parsePyFraction (normalizeFractionsForParsing b) = some f2 →
       combineQuantities (some a) (some b) =
         some (convertToUnicodeFraction (ratToPyString (f1 + f2)))) ∧
    (∀ a b, a ≠ "" → b ≠ "" →
       (parsePyFraction (normalizeFractionsForParsing a) = none ∨
        parsePyFraction (normalizeFractionsForParsing b) = none) →
       combineQuantities (some a) (some b) = some (a ++ " + " ++ b)) := by
  refine ⟨⟨mergedPair i1 i2, consolidate_pair_eq i1 i2 hu, rfl, rfl, rfl, rfl⟩, ?_, ?_⟩
  · intro a b f1 f2 ha hb hfa hfb
    rw [combineQuantities_some a b ha hb]
    unfold combineParsedQuantities
    rw [hfa, hfb]
    show some (convertToUnicodeFraction (ratToPyString (pyFracAdd f1 f2))) =
      some (convertToUnicodeFraction (ratToPyString (f1 + f2)))
    rw [pyFracAdd_eq_add]
  · intro a b ha hb hor
    rw [combineQuantities_some a b ha hb]
    unfold combineParsedQuantities
    rcases hfa2 : parsePyFraction (normalizeFractionsForParsing a) with _ | f1
    · rfl
    · rcases hfb2 : parsePyFraction (normalizeFractionsForParsing b) with _ | f2
      · rfl
      · exfalso
        rcases hor with hca | hcb
        · rw [hfa2] at hca
          exact Option.noConfusion hca
        · rw [hfb2] at hcb
          exact Option.noConfusion hcb

/-- C5 witness: the exact rational sum `½ + ¼ = ¾` on a concrete unit
group of two flour records (minimum confidence taken), and the `" + "`
concatenation of an unparsable pair. -/
theorem c5_witness :
    combineQuantities (some "a splash") (some "¼") = some "a splash + ¼" ∧
    (∃ m, consolidateIngredientGroup
        [⟨"flour", some "½", some "cups", ["sifted"], "½ cup flour", 1, false⟩,
         ⟨"flour", some "¼", some "cups", ["sifted", "fresh"], "¼ cup flour",
           mkRat 9 10, false⟩] = [m] ∧
       m.confidence = mkRat 9 10 ∧
       m.descriptors = ["sifted", "fresh"] ∧
       m.quantity = some "¾") := by
  have h := c5_consolidation_arithmetic
    ⟨"flour", some "½", some "cups", ["sifted"], "½ cup flour", 1, false⟩
    ⟨"flour", some "¼", some "cups", ["sifted", "fresh"], "¼ cup flour",
      mkRat 9 10, false⟩ rfl
  refine ⟨?_, ?_⟩
  · exact h.2.2 "a splash" "¼" (by decide) (by decide) (Or.inl (by decide))
  · rcases h.1 with ⟨m, hm, hconf, hdesc, _, hq⟩
    refine ⟨m, hm, ?_, ?_, ?_⟩
    · rw [hconf]
      decide
    · rw [hdesc]
      decide
    · rw [hq]
      decide

/-- C6 counterexample: two records for the same ingredient whose units
differ — one null, one the literal string `"unitless"` — are nevertheless
merged into one entry by consolidation (the grouping key folds both to
`"unitless"`), even though the repo's own pairwise predicate
`can_combine_ingredients` rejects the pair. -/
theorem c6_counterexample :
    (⟨"eggs", some "2", none, [], "2 eggs", 1, false⟩ :
        StructuredIngredient).unit ≠
      (⟨"eggs", some "3", some "unitless", [], "3 unitless eggs", 1, false⟩ :
        StructuredIngredient).unit ∧
    can_combine_ingredients
        ⟨"eggs", some "2", none, [], "2 eggs", 1, false⟩
        ⟨"eggs", some "3", some "unitless", [], "3 unitless eggs", 1, false⟩ = false ∧
    (consolidateIngredientGroup
        [⟨"eggs", some "2", none, [], "2 eggs", 1, false⟩,
         ⟨"eggs", some "3", some "unitless", [], "3 unitless eggs", 1, false⟩]).length
      = 1 := by
  refine ⟨by simp, by rfl, ?_⟩
  rfl

/-- C6 (amended): consolidation merges two same-name records iff their
unit keys agree, where the unit key folds a null or empty unit to the
string `"unitless"` — so a null unit merges with a null unit, but also
with a literal `"unitless"` or empty unit; the pairwise predicate
`can_combine_ingredients` (which demands strict unit equality) is what the
claim describes, but consolidation does not use it. -/
theorem c6_merge_iff_unit_key (i1 i2 : StructuredIngredient)
    (hraw : i1.raw_ingredient = i2.raw_ingredient) :
    ((consolidateIngredientGroup [i1, i2]).length = 1 ↔
      unitKey i1.unit = unitKey i2.unit) ∧
    (can_combine_ingredients i1 i2 = true ↔ i1.unit = i2.unit) := by
  constructor
  · by_cases hu : unitKey i1.unit = unitKey i2.unit
    · rw [consolidate_pair_eq i1 i2 hu]
      simp [hu]
    · rw [consolidate_pair_ne i1 i2 hu]
      simp [hu]
  · by_cases huv : i1.unit = i2.unit
    · simp [can_combine_ingredients, hraw, huv]
    · have hnn : ¬(i1.unit = none ∧ i2.unit = none) := by
        rintro ⟨ha, hb⟩
        exact huv (ha.trans hb.symm)
      simp [can_combine_ingredients, hraw, huv, hnn]

/-- C6 witness: the amended merge criterion evaluated on concrete records
with equal unit keys but distinct units. -/
theorem c6_witness :
    (consolidateIngredientGroup
        [⟨"salt", some "1", none, [], "1 salt", 1, false⟩,
         ⟨"salt", some "2", some "", [], "2 salt", 1, false⟩]).length = 1 ∧
    can_combine_ingredients
        ⟨"salt", some "1", none, [], "1 salt", 1, false⟩
        ⟨"salt", some "2", some "", [], "2 salt", 1, false⟩ = false := by
  constructor
  · exact ((c6_merge_iff_unit_key
      ⟨"salt", some "1", none, [], "1 salt", 1, false⟩
      ⟨"salt", some "2", some "", [], "2 salt", 1, false⟩ rfl).1).mpr rfl
  · have h := ((c6_merge_iff_unit_key
      ⟨"salt", some "1", none, [], "1 salt", 1, false⟩
      ⟨"salt", some "2", some "", [], "2 salt", 1, false⟩ rfl).2)
    simp at h
    simpa using h

/-- A strategy with no result contributes `none` to the pipeline. -/
theorem catchToNone_of_noResult {x : Except String (Option Recipe)}
    (h : noResult x) : catchToNone x = none := by
  rcases h with h | ⟨m, h⟩ <;> subst h <;> rfl

/-- C9: a failing fetch aborts the orchestration with the 400 error, no
recipe is returned and nothing is retried; when the fetch succeeds the
orchestrator always returns a recipe (never an error), and when every
strategy raises or returns nothing that recipe is the well-formed sentinel
with the fixed failure title. -/
theorem c9_fetch_error_propagation
    (scrapersRaw extructRaw aiRaw : Except String (Option Recipe))
    (msg : String) (fb : Option String) :
    parseRecipeHybrid (.error msg) scrapersRaw extructRaw aiRaw =
      .error ⟨400, "Failed to fetch URL: " ++ msg⟩ ∧
    (∃ r, parseRecipeHybrid (.ok fb) scrapersRaw extructRaw aiRaw = .ok r) ∧
    (noResult scrapersRaw → noResult extructRaw → noResult aiRaw →
      parseRecipeHybrid (.ok fb) scrapersRaw extructRaw aiRaw =
        .ok (sentinelRecipe fb) ∧
      (sentinelRecipe fb).title = "Unable to parse recipe") := by
  refine ⟨rfl, ⟨_, rfl⟩, ?_⟩
  intro h1 h2 h3
  refine ⟨?_, rfl⟩
  have e1 := catchToNone_of_noResult h1
  have e2 := catchToNone_of_noResult h2
  have e3 := catchToNone_of_noResult h3
  simp [parseRecipeHybrid, hybridCore, hybridStep2, hybridStep3,
    tryStrategyWithImagePatch, e1, e2, e3]

/-- C9 witness: the theorem applied to a raising scrapers strategy, an
empty extruct strategy and a raising AI strategy. -/
theorem c9_witness :
    parseRecipeHybrid (.error "connection refused") (.error "boom") (.ok none)
        (.error "ai down") =
      .error ⟨400, "Failed to fetch URL: connection refused"⟩ ∧
    parseRecipeHybrid (.ok (some "http://img")) (.error "boom") (.ok none)
        (.error "ai down") =
      .ok (sentinelRecipe (some "http://img")) := by
  have h := c9_fetch_error_propagation (.error "boom") (.ok none)
    (.error "ai down") "connection refused" (some "http://img")
  exact ⟨h.1, (h.2.2 (Or.inr ⟨_, rfl⟩) (Or.inl rfl) (Or.inr ⟨_, rfl⟩)).1⟩

/-- C1 counterexample: the SiteAdapter strategy yields a good-enough (but
incomplete) recipe and the later strategies yield nothing, yet the
orchestrator returns the sentinel rather than that first good-enough
result — step 4 only ever consults the final (AI) strategy's value. -/
theorem c1_counterexample :
    is_good_enough_recipe
        ⟨"Tomato Soup", none, none, none, ["a", "b"], [], true, false⟩ = true ∧
    isCompleteOpt
        (some ⟨"Tomato Soup", none, none, none, ["a", "b"], [], true, false⟩) = false ∧
    parseRecipeHybrid (.ok none)
        (.ok (some ⟨"Tomato Soup", none, none, none, ["a", "b"], [], true, false⟩))
        (.ok none) (.ok none) =
      .ok (sentinelRecipe none) ∧
    sentinelRecipe none ≠
      ⟨"Tomato Soup", none, none, none, ["a", "b"], [], true, false⟩ := by
  exact ⟨by decide, by decide, by rfl, by decide⟩

/-- C1 (amended): when no strategy produces a complete result the
orchestrator returns the final (AI) strategy's result whenever it exists
with a title other than `"Could not parse recipe"` — the earlier
strategies' incomplete results are discarded, not ranked or revisited —
and otherwise the sentinel recipe, whose ingredient and instruction lists
are the fixed single-element failure lists. -/
theorem c1_last_strategy_or_sentinel (fb : Option String)
    (scrapersRaw extructRaw aiRaw : Except String (Option Recipe))
    (h1 : isCompleteOpt (catchToNone scrapersRaw) = false)
    (h2 : isCompleteOpt (tryStrategyWithImagePatch extructRaw fb) = false)
    (h3 : isCompleteOpt (tryStrategyWithImagePatch aiRaw fb) = false) :
    parseRecipeHybrid (.ok fb) scrapersRaw extructRaw aiRaw =
      .ok (match tryStrategyWithImagePatch aiRaw fb with
           | some r =>
               if r.title = "Could not parse recipe" then sentinelRecipe fb else r
           | none => sentinelRecipe fb) ∧
    (sentinelRecipe fb).ingredients = ["Could not extract ingredients"] ∧
    (sentinelRecipe fb).instructions = ["Could not extract instructions"] := by
  refine ⟨?_, rfl, rfl⟩
  dsimp only [parseRecipeHybrid]
  congr 1
  have s1 : hybridCore fb (catchToNone scrapersRaw)
      (tryStrategyWithImagePatch extructRaw fb)
      (tryStrategyWithImagePatch aiRaw fb) =
      hybridStep2 fb (tryStrategyWithImagePatch extructRaw fb)
        (tryStrategyWithImagePatch aiRaw fb) := by
    rcases hs : catchToNone scrapersRaw with _ | r1
    · rfl
    · rw [hs] at h1
      simp only [isCompleteOpt] at h1
      simp [hybridCore, h1]
  have s2 : hybridStep2 fb (tryStrategyWithImagePatch extructRaw fb)
      (tryStrategyWithImagePatch aiRaw fb) =
      hybridStep3 fb (tryStrategyWithImagePatch aiRaw fb) := by
    rcases he : tryStrategyWithImagePatch extructRaw fb with _ | r2
    · rfl
    · rw [he] at h2
      simp only [isCompleteOpt] at h2
      simp [hybridStep2, h2]
  rw [s1, s2]
  rcases ha : tryStrategyWithImagePatch aiRaw fb with _ | r3
  · rfl
  · rw [ha] at h3
    simp only [isCompleteOpt] at h3
    by_cases ht : r3.title = "Could not parse recipe"
    · simp [hybridStep3, h3, ht]
    · simp [hybridStep3, h3, ht]

/-- C1 witness: with all three strategies empty every completeness check
is false and the amended theorem yields the sentinel. -/
theorem c1_witness :
    parseRecipeHybrid (.ok (some "http://img")) (.ok none) (.ok none) (.ok none) =
      .ok (sentinelRecipe (some "http://img")) := by
  have h := c1_last_strategy_or_sentinel (some "http://img") (.ok none) (.ok none)
    (.ok none) (by decide) (by decide) (by decide)
  exact h.1

/-- C10: ingredient-name normalization matches its tables by substring:
a confidently parsed name whose cleaned form contains `"water"` anywhere
makes structuring return no record at all, and otherwise a cleaned name
containing a variation of a consolidation-table entry is folded to that
(first matching) entry's canonical name; concretely `"watermelon"` is
dropped and `"eggplant"` becomes `"eggs"`. -/
theorem c10_substring_normalization (line : String) (p : ParsedNlp)
    (nm : String) (conf : ℚ)
    (hline : pyStrip line ≠ "")
    (hname : extractName p.name = some (nm, conf))
    (hconf : ¬ conf < CONFIDENCE_THRESHOLD) :
    (containsSub (cleanedName nm) "water" = true →
      parseIngredientStructured line (some p) = none) ∧
    (∀ c, containsSub (cleanedName nm) "water" = false →
      firstConsolidationMatch (cleanedName nm) = some c →
      ∃ r, parseIngredientStructured line (some p) = some r ∧
        r.raw_ingredient = c ∧ r.used_fallback = false) ∧
    normalizeRawIngredient "watermelon" = none ∧
    normalizeRawIngredient "eggplant" = some "eggs" := by
  refine ⟨?_, ?_, by decide, by decide⟩
  · intro hw
    have hnorm : normalizeRawIngredient nm = none := by
      simp [normalizeRawIngredient, IGNORED_INGREDIENTS, hw]
    simp [parseIngredientStructured, hline, hname, hconf, hnorm]
  · intro c hw hm
    have hnorm : normalizeRawIngredient nm = some c := by
      simp [normalizeRawIngredient, IGNORED_INGREDIENTS, hw, hm]
    refine ⟨{ raw_ingredient := c, quantity := (extractAmount p.amount).1,
              unit := (extractAmount p.amount).2, descriptors := descriptorsOf p,
              original_text := line, confidence := conf, used_fallback := false },
            ?_, rfl, rfl⟩
    simp [parseIngredientStructured, hline, hname, hconf, hnorm]

/-- C10 witness: a confident parse of `"watermelon"` structures to
nothing, and a confident parse of `"eggplant"` structures to the canonical
name `"eggs"`. -/
theorem c10_witness :
    parseIngredientStructured "8 oz watermelon"
        (some ⟨some (.listName [⟨"watermelon", some (mkRat 9 10)⟩]),
          [⟨some "8", some "oz"⟩], none, none⟩) = none ∧
    (∃ r, parseIngredientStructured "2 eggplant"
        (some ⟨some (.listName [⟨"eggplant", some (mkRat 9 10)⟩]),
          [⟨some "2", none⟩], none, none⟩) = some r ∧
      r.raw_ingredient = "eggs" ∧ r.used_fallback = false) := by
  constructor
  · exact (c10_substring_normalization "8 oz watermelon"
      ⟨some (.listName [⟨"watermelon", some (mkRat 9 10)⟩]),
        [⟨some "8", some "oz"⟩], none, none⟩
      "watermelon" (mkRat 9 10) (by decide) rfl (by decide)).1 (by decide)
  · exact (c10_substring_normalization "2 eggplant"
      ⟨some (.listName [⟨"eggplant", some (mkRat 9 10)⟩]),
        [⟨some "2", none⟩], none, none⟩
      "eggplant" (mkRat 9 10) (by decide) rfl (by decide)).2.1 "eggs"
      (by decide) (by decide)

end RecipeParser
